import Mathlib

/-!
Verification of the Feature Progress Store (scripts `show_status.py`,
`update_feature.py`, `validate_features.py`).

The Python scripts manipulate a JSON ledger through `dict.get` accesses.
The embedding represents a feature record as a structure with optional
fields: an absent key and a JSON `null` are both `none` (every access the
claims exercise goes through `.get`, which treats the two identically),
and fields carry their documented types (every `isinstance` type check of
the validator is therefore vacuously satisfied and contributes no error).
File contents are represented directly as parsed ledgers; the
file-not-found and JSON-decode branches of the scripts are outside the
embedded state space.
-/

/-- One feature record of `feature_list.json`. -/
structure Feature where
  id : Option String
  category : Option String
  description : Option String
  priority : Option String
  steps : Option (List String)
  passes : Option Bool
deriving DecidableEq, Repr

/-- The `metadata` member of the ledger. Counts are JSON integers. -/
structure Metadata where
  project_name : Option String
  total_features : Option Int
  passing : Option Int
  failing : Option Int
  last_updated : Option String
deriving DecidableEq, Repr

/-- The persisted ledger document: `features` plus optional `metadata`. -/
structure Ledger where
  features : List Feature
  metadata : Option Metadata
deriving DecidableEq, Repr

/-! ## show_status.py -/

/-- The dict `priority_order = {'critical': 0, 'high': 1, 'medium': 2, 'low': 3}`. -/
def priority_order (p : String) : Option Nat :=
  if p = "critical" then some 0
  else if p = "high" then some 1
  else if p = "medium" then some 2
  else if p = "low" then some 3
  else none

/-- The sort key `priority_order.get(f.get('priority', 'low'), 4)` of
`get_next_features`: a missing priority falls back to the string `'low'`
before the dict lookup. -/
def feature_rank (f : Feature) : Nat :=
  (priority_order (f.priority.getD "low")).getD 4

/-- Stable insertion of a feature into a list sorted by `key`; an element
is inserted before the first strictly greater key, hence after all
equal keys already present. -/
def insert_by_key (key : Feature → Nat) (f : Feature) : List Feature → List Feature
  | [] => [f]
  | g :: gs => if key f ≤ key g then f :: g :: gs else g :: insert_by_key key f gs

/-- Stable sort by `key`; models Python's stable `list.sort(key=...)`
(for a given key, the stable sorted order is unique, so any stable
algorithm computes the same list). -/
def sort_by_key (key : Feature → Nat) : List Feature → List Feature
  | [] => []
  | f :: rest => insert_by_key key f (sort_by_key key rest)

/-- The failing-feature filter of `get_next_features`:
`[f for f in features if not f.get('passes', False)]`. -/
def failing_of (data : Ledger) : List Feature :=
  data.features.filter (fun f => !(f.passes.getD false))

/-- `get_next_features(data, limit)`: failing features, stably sorted by
priority rank, truncated to `limit`. -/
def get_next_features (data : Ledger) (limit : Nat) : List Feature :=
  (sort_by_key feature_rank (failing_of data)).take limit

/-- The "next feature" of the spec: the first entry of
`get_next_features` (with its default limit 5), `none` when complete. -/
def next_feature (data : Ledger) : Option Feature :=
  (get_next_features data 5).head?

/-- Minimum of `key` over a list of features (of the empty list: `0`,
never used). -/
def min_key (key : Feature → Nat) : List Feature → Nat
  | [] => 0
  | [f] => key f
  | f :: g :: rest => min (key f) (min_key key (g :: rest))

/-- Modelled from the spec's words for C1: the selected feature is the
earliest failing feature whose rank is minimal. -/
def first_min_rank (fs : List Feature) : Option Feature :=
  fs.find? (fun f => feature_rank f == min_key feature_rank fs)

/-- Modelled from the claim's words for C1: a rank function in which an
unrecognized OR MISSING priority both get rank 4. -/
def feature_rank_claim (f : Feature) : Nat :=
  match f.priority with
  | some p => (priority_order p).getD 4
  | none => 4

/-- Modelled from the claim's words for C1: next-feature selection under
the claim's rank function. -/
def next_feature_claim (data : Ledger) : Option Feature :=
  (sort_by_key feature_rank_claim (failing_of data)).head?

/-! ## update_feature.py -/

/-- Structured rendering of the outcomes of `update_feature_status`.
`featureNotFound` carries the ids of the first ten features, which the
script prints as the list of available features. -/
inductive UpdateOutcome where
  | featureNotFound (sample : List (Option String))
  | noChange (status : Bool)
  | dryRun (oldStatus newStatus : Bool)
  | updated (oldStatus newStatus : Bool)
deriving DecidableEq, Repr

/-- The script's boolean return value: only the feature-not-found path
returns `False` (the load-error paths are outside the embedded state). -/
def UpdateOutcome.success : UpdateOutcome → Bool
  | .featureNotFound _ => false
  | _ => true

/-- Whether the call mutated the file: only the `updated` path writes. -/
def UpdateOutcome.changed : UpdateOutcome → Bool
  | .updated _ _ => true
  | _ => false

/-- `find_feature`: first index/record whose `id` equals the argument
(`feature.get('id') == feature_id`, so only `some fid` matches). -/
def find_feature_aux (fid : String) : List Feature → Nat → Option (Nat × Feature)
  | [], _ => none
  | f :: rest, i =>
    if f.id = some fid then some (i, f) else find_feature_aux fid rest (i + 1)

/-- `find_feature(data, feature_id)` of update_feature.py. -/
def find_feature (data : Ledger) (fid : String) : Option (Nat × Feature) :=
  find_feature_aux fid data.features 0

/-- `sum(1 for f in features if f.get('passes'))`: truthiness of the
optional boolean is `some true`. -/
def count_passing (fs : List Feature) : Nat :=
  fs.countP (fun f => f.passes.getD false)

/-- `sum(1 for f in features if not f.get('passes'))`. -/
def count_failing (fs : List Feature) : Nat :=
  fs.countP (fun f => !(f.passes.getD false))

/-- `update_metadata`: creates `metadata` if absent (preserving
`project_name` when present) and overwrites the derived counts and
`last_updated` (the `datetime.now()` value enters as the `now`
parameter). -/
def update_metadata (data : Ledger) (now : String) : Ledger :=
  let md0 := data.metadata.getD (Metadata.mk none none none none none)
  Ledger.mk data.features
    (some (Metadata.mk md0.project_name
      (some (data.features.length : Int))
      (some (count_passing data.features : Int))
      (some (count_failing data.features : Int))
      (some now)))

/-- On-disk state seen by update_feature.py: the ledger file and its
sibling backup file. -/
structure FileState where
  primary : Ledger
  backup : Option Ledger
deriving DecidableEq, Repr

/-- The backup step `shutil.copy(filepath, backup_path)`: duplicates the
current primary file into the backup slot. -/
def write_backup (fs : FileState) : FileState :=
  FileState.mk fs.primary (some fs.primary)

/-- The persist step `json.dump(data, open(filepath, 'w'))`: overwrites
the primary file. -/
def write_primary (fs : FileState) (data : Ledger) : FileState :=
  FileState.mk data fs.backup

/-- `save_feature_list`: backup first (when requested), then overwrite
the primary file, in that statement order. -/
def save_feature_list (fs : FileState) (data : Ledger) (backup : Bool) : FileState :=
  write_primary (if backup then write_backup fs else fs) data

/-- Replace the `passes` field of a record
(`data['features'][index]['passes'] = passes`). -/
def set_passes (f : Feature) (p : Bool) : Feature :=
  Feature.mk f.id f.category f.description f.priority f.steps (some p)

/-- `update_feature_status(filepath, feature_id, passes, dry_run)`:
looks the feature up, short-circuits when the status is unchanged,
otherwise sets the single field, recomputes metadata and saves with a
backup. Returns the outcome and the resulting file state. -/
def update_feature_status (fs : FileState) (feature_id : String) (passes : Bool)
    (dry_run : Bool) (now : String) : UpdateOutcome × FileState :=
  match find_feature fs.primary feature_id with
  | none =>
    (UpdateOutcome.featureNotFound ((fs.primary.features.take 10).map Feature.id), fs)
  | some (i, f) =>
    if f.passes.getD false = passes then (UpdateOutcome.noChange passes, fs)
    else if dry_run then (UpdateOutcome.dryRun (f.passes.getD false) passes, fs)
    else
      (UpdateOutcome.updated (f.passes.getD false) passes,
       save_feature_list fs
         (update_metadata
           (Ledger.mk (fs.primary.features.set i (set_passes f passes)) fs.primary.metadata)
           now)
         true)

/-- Modelled from the claim's words for C2: the invariant said to hold
after every successful Mutate — metadata present with
`passing + failing == total_features == len(features)`, where `passing`
counts the features whose `passes` field holds and `failing` the rest. -/
def metadata_invariant (d : Ledger) : Bool :=
  match d.metadata with
  | some (Metadata.mk _ (some t) (some p) (some fl) _) =>
    p == (count_passing d.features : Int) &&
    fl == (count_failing d.features : Int) &&
    p + fl == t &&
    t == (d.features.length : Int)
  | _ => false

/-! ## Backup path (`filepath.with_suffix('.json.bak')`)

Path names are modelled as character lists; `path_suffix_len` follows
CPython's `PurePath.suffix` (the part of the final name from its last
dot, provided that dot is neither the first nor the last character), and
`with_suffix` follows `PurePath.with_suffix` (strip the old suffix, then
append the new one). -/

/-- Index of the first `'.'` of a character list, if any. -/
def first_dot_idx : List Char → Option Nat
  | [] => none
  | c :: rest =>
    if c = '.' then some 0 else (first_dot_idx rest).map (· + 1)

/-- Length of the pathlib suffix of a file name: `name.rfind('.')` gives
position `i`; the suffix is `name[i:]` when `0 < i < len(name) - 1`,
else empty. -/
def path_suffix_len (name : List Char) : Nat :=
  match first_dot_idx name.reverse with
  | none => 0
  | some j =>
    let i := name.length - 1 - j
    if 0 < i ∧ i < name.length - 1 then name.length - i else 0

/-- The pathlib suffix itself (possibly empty). -/
def path_suffix (name : List Char) : List Char :=
  name.drop (name.length - path_suffix_len name)

/-- `PurePath.with_suffix(suf)`: drop the old suffix, append `suf`. -/
def with_suffix (name suf : List Char) : List Char :=
  name.take (name.length - path_suffix_len name) ++ suf

/-- The backup path computed by `save_feature_list`:
`filepath.with_suffix('.json.bak')`, applied to the file name. -/
def backup_name (name : List Char) : List Char :=
  with_suffix name ".json.bak".toList

/-! ## validate_features.py -/

/-- Structured rendering of the validator's error messages; each
constructor corresponds to one distinct `errors.append(...)` format
string, carrying the data interpolated into it. -/
inductive VError where
  | missingField (fid fieldName : String)
  | badPriority (fid value : String)
  | stepsEmpty (fid : String)
  | descTooShort (fid : String)
  | duplicateId (dupId : String)
  | metaMissing (fieldName : String)
  | metaSumMismatch (passing failing total : Int)
  | metaTotalMismatch (declared : Option Int) (actual : Nat)
  | metaPassingMismatch (declared : Option Int) (actual : Nat)
  | metaFailingMismatch (declared : Option Int) (actual : Nat)
deriving DecidableEq, Repr

/-- A conditional single-error list: `if c: errors.append(e)`. -/
def err_if (c : Prop) [Decidable c] (e : VError) : List VError :=
  if c then [e] else []

/-- The list `['critical', 'high', 'medium', 'low']`. -/
def valid_priorities : List String := ["critical", "high", "medium", "low"]

/-- `validate_feature(feature, index)`. The `isinstance` checks on `id`,
`category`, `description`, the steps elements and `passes` are satisfied
by construction in this typed embedding and contribute no errors; the
remaining checks appear in the script's order. -/
def validate_feature (f : Feature) (index : Nat) : List VError :=
  let fid := f.id.getD ("index-" ++ toString index)
  err_if (f.id = none) (VError.missingField fid "id") ++
  err_if (f.category = none) (VError.missingField fid "category") ++
  err_if (f.description = none) (VError.missingField fid "description") ++
  err_if (f.priority = none) (VError.missingField fid "priority") ++
  err_if (f.steps = none) (VError.missingField fid "steps") ++
  err_if (f.passes = none) (VError.missingField fid "passes") ++
  (match f.priority with
   | some p => err_if (p ∉ valid_priorities) (VError.badPriority fid p)
   | none => []) ++
  (match f.steps with
   | some st => err_if (st = []) (VError.stepsEmpty fid)
   | none => []) ++
  (match f.description with
   | some d => err_if (d.length < 10) (VError.descTooShort fid)
   | none => [])

/-- `validate_metadata(metadata)`: required members, then the internal
sum check when all three counters are present. -/
def validate_metadata (md : Metadata) : List VError :=
  err_if (md.project_name = none) (VError.metaMissing "project_name") ++
  err_if (md.total_features = none) (VError.metaMissing "total_features") ++
  err_if (md.passing = none) (VError.metaMissing "passing") ++
  err_if (md.failing = none) (VError.metaMissing "failing") ++
  (match md.total_features, md.passing, md.failing with
   | some t, some p, some fl => err_if (p + fl ≠ t) (VError.metaSumMismatch p fl t)
   | _, _, _ => [])

/-- Aggregate statistics accumulated by `validate_feature_list` (and the
by-label breakdowns, as insertion-ordered association lists, matching
Python dict semantics). -/
structure Stats where
  total : Nat
  passing : Nat
  failing : Nat
  by_category : List (String × Nat)
  by_priority : List (String × Nat)
deriving DecidableEq, Repr

/-- `d[k] = d.get(k, 0) + 1` on an insertion-ordered dict. -/
def bump : List (String × Nat) → String → List (String × Nat)
  | [], k => [(k, 1)]
  | (k', n) :: rest, k =>
    if k' = k then (k', n + 1) :: rest else (k', n) :: bump rest k

/-- The per-feature statistics update of the validation loop. -/
def stats_step (s : Stats) (f : Feature) : Stats :=
  Stats.mk (s.total + 1)
    (s.passing + (if f.passes.getD false then 1 else 0))
    (s.failing + (if f.passes.getD false then 0 else 1))
    (bump s.by_category (f.category.getD "uncategorized"))
    (bump s.by_priority (f.priority.getD "unknown"))

/-- The statistics bundle computed over the feature list. -/
def compute_stats (fs : List Feature) : Stats :=
  fs.foldl stats_step (Stats.mk 0 0 0 [] [])

/-- The duplicate-detection view of a feature's id: `fid = feature.get('id')`
followed by Python truthiness (`if fid:`) — absent, null and empty-string
ids are all falsy and skipped. -/
def id_truthy (f : Feature) : Option String :=
  match f.id with
  | some s => if s = "" then none else some s
  | none => none

/-- The per-feature loop of `validate_feature_list`: duplicate-id check
against the `seen_ids` set (here an accumulated list), then the
per-feature checks; statistics are accumulated separately by
`compute_stats`, which the error computation never reads. -/
def validate_loop : List Feature → Nat → List String → List VError
  | [], _, _ => []
  | f :: rest, i, seen =>
    (match id_truthy f with
     | some s => err_if (s ∈ seen) (VError.duplicateId s)
     | none => []) ++
    validate_feature f i ++
    validate_loop rest (i + 1)
      (match id_truthy f with
       | some s => if s ∈ seen then seen else s :: seen
       | none => seen)

/-- The validator's result triple `(is_valid, errors, stats)`. -/
structure ValidationResult where
  isValid : Bool
  errors : List VError
  stats : Stats
deriving DecidableEq, Repr

/-- `validate_feature_list(filepath)` on a parsed ledger: the feature
loop, then metadata validation and the cross-check of declared counts
against the recomputed statistics; valid iff no errors. -/
def validate_feature_list (data : Ledger) : ValidationResult :=
  let st := compute_stats data.features
  let errs := validate_loop data.features 0 [] ++
    (match data.metadata with
     | some md =>
       validate_metadata md ++
       err_if (md.total_features ≠ some (st.total : Int)) (VError.metaTotalMismatch md.total_features st.total) ++
       err_if (md.passing ≠ some (st.passing : Int)) (VError.metaPassingMismatch md.passing st.passing) ++
       err_if (md.failing ≠ some (st.failing : Int)) (VError.metaFailingMismatch md.failing st.failing)
     | none => [])
  ValidationResult.mk (errs.length == 0) errs st

/-- `print_report`'s percentage: `passing / max(total, 1) * 100` in real
(Python float, here rational) arithmetic — the divisor is never zero. -/
def report_pct (passing total : Nat) : ℚ :=
  (passing : ℚ) / (max (total : ℚ) 1) * 100

/-- `print_progress_bar`: prints nothing when `total == 0` (returning
`none` here, computing no percentage at all); otherwise returns the
filled/empty cell counts and the displayed percentage. -/
def print_progress_bar (passing total width : Nat) : Option (Int × Int × ℚ) :=
  if total = 0 then none
  else
    let pct : ℚ := (passing : ℚ) / (total : ℚ)
    let filled : Int := ⌊(width : ℚ) * pct⌋
    some (filled, (width : Int) - filled, pct * 100)

/-! ### Counting helpers for the duplicate-id analysis -/

/-- Number of `duplicateId x` entries in an error list. -/
def count_dup (x : String) : List VError → Nat
  | [] => 0
  | e :: rest => (if e = VError.duplicateId x then 1 else 0) + count_dup x rest

/-- Number of features whose truthy id (present and non-empty) is `x`. -/
def id_count (x : String) : List Feature → Nat
  | [] => 0
  | f :: rest =>
    (match id_truthy f with
     | some s => if s = x then 1 else 0
     | none => 0) + id_count x rest

/-! ## Concrete instances used by the claim theorems -/

/-- The spec's C1 scenario ledger: F001 high/failing, F002 critical/failing. -/
def ledger_c1_scenario : Ledger :=
  Ledger.mk
    [Feature.mk (some "F001") none none (some "high") none (some false),
     Feature.mk (some "F002") none none (some "critical") none (some false)]
    none

/-- A ledger refuting C1's rank table: A1 has no priority field (the code
ranks it 3 via the `'low'` default), B1 has declared priority `low`
(rank 3); under the claim's table A1 would rank 4 and B1 would win. -/
def ledger_c1_cex : Ledger :=
  Ledger.mk
    [Feature.mk (some "A1") none none none none (some false),
     Feature.mk (some "B1") none none (some "low") none (some false)]
    none

/-- A file state refuting C2: the single feature already fails, and the
stored metadata is stale (total_features 99 for one feature). -/
def fs_c2_cex : FileState :=
  FileState.mk
    (Ledger.mk [Feature.mk (some "F001") none none none none (some false)]
      (some (Metadata.mk none (some 99) (some 0) (some 0) none)))
    none

/-- A two-feature file state on which Mutate(F002, true) performs a write. -/
def fs_c2_w : FileState :=
  FileState.mk
    (Ledger.mk
      [Feature.mk (some "F001") none none (some "high") none (some false),
       Feature.mk (some "F002") none none (some "critical") none (some false)]
      none)
    none

/-- The file state produced by Mutate(F002, true) on `fs_c2_w`. -/
def fs_c2_w_after : FileState :=
  FileState.mk
    (Ledger.mk
      [Feature.mk (some "F001") none none (some "high") none (some false),
       Feature.mk (some "F002") none none (some "critical") none (some true)]
      (some (Metadata.mk none (some 2) (some 1) (some 1) (some "now"))))
    (some fs_c2_w.primary)

/-- A file state whose only feature is already passing (no-op Mutate). -/
def fs_c3_w : FileState :=
  FileState.mk
    (Ledger.mk [Feature.mk (some "F001") none none (some "high") none (some true)] none)
    none

/-- A ledger refuting C4's "exactly one error per offending id": the id
F001 occurs three times, so the loop appends two duplicate errors. -/
def ledger_c4_cex : Ledger :=
  Ledger.mk
    [Feature.mk (some "F001") none none none none (some true),
     Feature.mk (some "F001") none none none none (some true),
     Feature.mk (some "F001") none none none none (some true)]
    none

/-- A ledger with exactly two features sharing id F001. -/
def ledger_c4_w : Ledger :=
  Ledger.mk
    [Feature.mk (some "F001") (some "core") (some "first duplicate") (some "high") (some ["step one"]) (some false),
     Feature.mk (some "F001") (some "core") (some "second duplicate") (some "low") (some ["step two"]) (some true)]
    none

/-- The spec's mutation scenario state: metadata present and consistent
before the call. -/
def fs_c5_w : FileState :=
  FileState.mk
    (Ledger.mk
      [Feature.mk (some "F001") none none (some "high") none (some false),
       Feature.mk (some "F002") none none (some "critical") none (some false)]
      (some (Metadata.mk (some "proj") (some 2) (some 0) (some 2) (some "t0"))))
    none

/-- The file state produced by Mutate(F002, true) on `fs_c5_w`. -/
def fs_c5_w_after : FileState :=
  FileState.mk
    (Ledger.mk
      [Feature.mk (some "F001") none none (some "high") none (some false),
       Feature.mk (some "F002") none none (some "critical") none (some true)]
      (some (Metadata.mk (some "proj") (some 2) (some 1) (some 1) (some "now"))))
    (some fs_c5_w.primary)

/-- A file state used to exercise the backup-overwrite fact of C6. -/
def fs_c6_w : FileState :=
  FileState.mk
    (Ledger.mk [Feature.mk (some "F001") none none (some "low") none (some true)] none)
    (some (Ledger.mk [] none))

/-- A replacement document for the C6 save. -/
def ledger_c6_w : Ledger :=
  Ledger.mk [Feature.mk (some "F001") none none (some "low") none (some false)] none

/-- A file state without any feature named F999. -/
def fs_c7_w : FileState :=
  FileState.mk
    (Ledger.mk
      [Feature.mk (some "F001") none none (some "high") none (some false),
       Feature.mk (some "F002") none none (some "critical") none (some false)]
      none)
    none

/-- A ledger with an empty feature list. -/
def ledger_c8_w : Ledger :=
  Ledger.mk [] (some (Metadata.mk (some "proj") (some 0) (some 0) (some 0) none))

/-- A feature whose `passes` field is absent. -/
def f_c9 : Feature :=
  Feature.mk (some "F001") none none (some "high") none none

/-- A ledger containing `f_c9`. -/
def ledger_c9_w : Ledger :=
  Ledger.mk [f_c9] none

/-- A file state containing `f_c9`. -/
def fs_c9_w : FileState :=
  FileState.mk ledger_c9_w none

/-- A ledger mixing a real duplicate (F001 twice) with features whose id
is absent or empty. -/
def ledger_c10_w : Ledger :=
  Ledger.mk
    [Feature.mk none none none none none (some false),
     Feature.mk (some "") none none none none (some false),
     Feature.mk (some "F001") none none none none (some true),
     Feature.mk none none none none none (some false),
     Feature.mk (some "") none none none none (some true),
     Feature.mk (some "F001") none none none none (some false)]
    none

/-! ## Lemmas -/

/-! ### Sorting lemmas -/

theorem insert_by_key_ne_nil (key : Feature → Nat) (f : Feature) :
    ∀ l, insert_by_key key f l ≠ [] := by
  intro l
  cases l with
  | nil => simp [insert_by_key]
  | cons g gs =>
    simp only [insert_by_key]
    split <;> simp

theorem head_insert_by_key_cons (key : Feature → Nat) (f g : Feature) (gs : List Feature) :
    (insert_by_key key f (g :: gs)).head? = some (if key f ≤ key g then f else g) := by
  simp only [insert_by_key]
  split <;> rfl

theorem min_key_cons_cons (key : Feature → Nat) (f g : Feature) (rest : List Feature) :
    min_key key (f :: g :: rest) = min (key f) (min_key key (g :: rest)) := rfl

/-- The head of the stable sort by `key` is the earliest element whose
key is minimal. -/
theorem head_sort_by_key (key : Feature → Nat) :
    ∀ fs, (sort_by_key key fs).head? = fs.find? (fun f => key f == min_key key fs)
  | [] => rfl
  | [f] => by
    simp [sort_by_key, insert_by_key, min_key, List.find?]
  | f :: g :: rest => by
    have ih := head_sort_by_key key (g :: rest)
    cases hcons : sort_by_key key (g :: rest) with
    | nil =>
      exact absurd hcons (by simp [sort_by_key]; exact insert_by_key_ne_nil key g _)
    | cons h t =>
      have hfind : (g :: rest).find? (fun x => key x == min_key key (g :: rest)) = some h := by
        rw [← ih, hcons]
        rfl
      have hkey : key h = min_key key (g :: rest) := by
        have := List.find?_some hfind
        simpa using this
      have hsort : sort_by_key key (f :: g :: rest) = insert_by_key key f (h :: t) := by
        simp only [sort_by_key] at hcons ⊢
        rw [hcons]
      rw [hsort, head_insert_by_key_cons, min_key_cons_cons]
      by_cases hle : key f ≤ key h
      · have hmin : min (key f) (min_key key (g :: rest)) = key f := by
          rw [← hkey]; exact Nat.min_eq_left hle
        rw [if_pos hle, hmin]
        rw [List.find?_cons_of_pos _ (by simp)]
      · have hlt : key h < key f := Nat.lt_of_not_le hle

        have hmin : min (key f) (min_key key (g :: rest)) = min_key key (g :: rest) := by
          rw [← hkey]; exact Nat.min_eq_right (Nat.le_of_lt hlt)
        rw [if_neg hle, hmin]
        rw [List.find?_cons_of_neg _ (by simp; omega)]
        rw [hfind]

theorem head?_take_five (l : List Feature) : (l.take 5).head? = l.head? := by
  cases l <;> rfl

theorem count_dup_append (x : String) (a b : List VError) :
    count_dup x (a ++ b) = count_dup x a + count_dup x b := by
  induction a with
  | nil => simp [count_dup]
  | cons e rest ih => simp [count_dup, ih]; omega

theorem mem_err_if_iff (e e' : VError) (c : Prop) [Decidable c] :
    e ∈ err_if c e' ↔ (c ∧ e = e') := by
  unfold err_if
  split <;> simp_all

theorem count_dup_eq_zero (x : String) (l : List VError)
    (h : VError.duplicateId x ∉ l) : count_dup x l = 0 := by
  induction l with
  | nil => rfl
  | cons e rest ih =>
    simp only [count_dup]
    rw [if_neg (fun hh : e = VError.duplicateId x =>
      h (by rw [← hh]; exact List.mem_cons_self e rest))]
    rw [ih (fun hr => h (List.mem_cons_of_mem e hr))]

theorem count_dup_validate_feature (x : String) (f : Feature) (i : Nat) :
    count_dup x (validate_feature f i) = 0 := by
  apply count_dup_eq_zero
  intro he
  obtain ⟨fid, cat, dsc, pri, st, pss⟩ := f
  cases pri <;> cases st <;> cases dsc <;>
    simp [validate_feature, mem_err_if_iff] at he

theorem count_dup_validate_metadata (x : String) (md : Metadata) :
    count_dup x (validate_metadata md) = 0 := by
  apply count_dup_eq_zero
  intro he
  obtain ⟨pn, tf, ps, fl, lu⟩ := md
  cases tf <;> cases ps <;> cases fl <;>
    simp [validate_metadata, mem_err_if_iff] at he

theorem count_dup_meta_part (x : String) (data : Ledger) (st : Stats) :
    count_dup x
      (match data.metadata with
       | some md =>
         validate_metadata md ++
         err_if (md.total_features ≠ some (st.total : Int)) (VError.metaTotalMismatch md.total_features st.total) ++
         err_if (md.passing ≠ some (st.passing : Int)) (VError.metaPassingMismatch md.passing st.passing) ++
         err_if (md.failing ≠ some (st.failing : Int)) (VError.metaFailingMismatch md.failing st.failing)
       | none => []) = 0 := by
  cases data.metadata with
  | none => rfl
  | some md =>
    simp only [count_dup_append, count_dup_validate_metadata]
    rw [count_dup_eq_zero _ _ (by simp [mem_err_if_iff]),
      count_dup_eq_zero _ _ (by simp [mem_err_if_iff]),
      count_dup_eq_zero _ _ (by simp [mem_err_if_iff])]

/-- Core counting fact: processing the list with `seen` accumulated, each
truthy occurrence of `x` beyond the first (or every occurrence, if `x`
was already seen) contributes exactly one duplicate error. -/
theorem count_dup_validate_loop (x : String) :
    ∀ (fs : List Feature) (i : Nat) (seen : List String),
      count_dup x (validate_loop fs i seen) =
        if x ∈ seen then id_count x fs else id_count x fs - 1
  | [], i, seen => by
    simp [validate_loop, count_dup, id_count]
  | f :: rest, i, seen => by
    have ihs := count_dup_validate_loop x rest (i + 1)
    simp only [validate_loop, count_dup_append, count_dup_validate_feature]
    cases hid : id_truthy f with
    | none =>
      simp only [hid, id_count, count_dup]
      rw [ihs]
      by_cases hx : x ∈ seen <;> simp [hx]
    | some s =>
      simp only [hid, id_count]
      by_cases hs : s ∈ seen
      · rw [if_pos hs]
        unfold err_if
        rw [if_pos hs, ihs]
        by_cases hx : x ∈ seen
        · rw [if_pos hx, if_pos hx]
          by_cases hsx : s = x <;> simp [count_dup, hsx]
        · have hsx : ¬ s = x := fun h => hx (h ▸ hs)
          rw [if_neg hx, if_neg hx]
          simp [count_dup, hsx]
      · rw [if_neg hs]
        unfold err_if
        rw [if_neg hs, ihs]
        simp only [count_dup, Nat.zero_add]
        by_cases hx : x ∈ seen
        · have hsx : ¬ s = x := fun h => hs (h ▸ hx)
          rw [if_pos hx, if_pos (List.mem_cons_of_mem s hx)]
          simp [hsx]
        · by_cases hsx : s = x
          · subst hsx
            rw [if_neg hx, if_pos (List.mem_cons_self s seen)]
            simp
          · have hxcons : x ∉ s :: seen := by
              intro hmem
              rcases List.mem_cons.mp hmem with h | h
              · exact hsx h.symm
              · exact hx h
            rw [if_neg hx, if_neg hxcons]
            simp [hsx]

theorem count_dup_le_length (x : String) (l : List VError) :
    count_dup x l ≤ l.length := by
  induction l with
  | nil => simp [count_dup]
  | cons e rest ih =>
    simp only [count_dup, List.length_cons]
    split <;> omega

theorem count_dup_pos_of_mem {x : String} {l : List VError}
    (h : VError.duplicateId x ∈ l) : 1 ≤ count_dup x l := by
  induction l with
  | nil => cases h
  | cons e rest ih =>
    simp only [count_dup]
    rcases List.mem_cons.mp h with h | h
    · rw [if_pos h.symm]; omega
    · have := ih h; omega

theorem id_truthy_ne_empty {f : Feature} {s : String}
    (h : id_truthy f = some s) : s ≠ "" := by
  unfold id_truthy at h
  cases hid : f.id with
  | none => rw [hid] at h; cases h
  | some t =>
    rw [hid] at h
    by_cases ht : t = ""
    · simp [ht] at h
    · simp [ht] at h
      exact h ▸ ht

theorem id_count_empty_string (l : List Feature) : id_count "" l = 0 := by
  induction l with
  | nil => rfl
  | cons f rest ih =>
    simp only [id_count, ih]
    cases hid : id_truthy f with
    | none => simp
    | some s =>
      have := id_truthy_ne_empty hid
      simp [this]

/-- Decomposition of `validate_feature_list`'s duplicate-error count. -/
theorem count_dup_validate_feature_list (x : String) (data : Ledger) :
    count_dup x (validate_feature_list data).errors = id_count x data.features - 1 := by
  unfold validate_feature_list
  simp only [count_dup_append, count_dup_meta_part]
  rw [count_dup_validate_loop]
  simp

theorem find_feature_aux_none (fid : String) :
    ∀ (l : List Feature) (i : Nat), (∀ f ∈ l, f.id ≠ some fid) →
      find_feature_aux fid l i = none
  | [], _, _ => rfl
  | f :: rest, i, h => by
    unfold find_feature_aux
    rw [if_neg (h f (List.mem_cons_self f rest))]
    exact find_feature_aux_none fid rest (i + 1) (fun g hg => h g (List.mem_cons_of_mem f hg))

theorem count_passing_add_count_failing (l : List Feature) :
    count_passing l + count_failing l = l.length := by
  induction l with
  | nil => rfl
  | cons f rest ih =>
    simp only [count_passing, count_failing, List.countP_cons, List.length_cons] at ih ⊢
    by_cases hp : f.passes.getD false <;> simp [hp] <;> omega

theorem metadata_invariant_update_metadata (d : Ledger) (now : String) :
    metadata_invariant (update_metadata d now) = true := by
  have h := count_passing_add_count_failing d.features
  simp [update_metadata, metadata_invariant]
  omega

/-- On the mutating path (`updated` outcome, `dry_run = False`) the
result state is `save_feature_list` of a document whose metadata has
just been recomputed. -/
theorem updated_path (fs : FileState) (fid : String) (p : Bool) (now : String)
    (a b : Bool) (fs' : FileState)
    (h : update_feature_status fs fid p false now = (UpdateOutcome.updated a b, fs')) :
    ∃ d2, metadata_invariant d2 = true ∧ fs' = save_feature_list fs d2 true := by
  unfold update_feature_status at h
  cases hf : find_feature fs.primary fid with
  | none =>
    rw [hf] at h
    simp at h
  | some pr =>
    obtain ⟨i, f⟩ := pr
    rw [hf] at h
    simp only at h
    by_cases hc : f.passes.getD false = p
    · rw [if_pos hc] at h
      simp at h
    · rw [if_neg hc] at h
      rw [if_neg (by simp : ¬ ((false : Bool) = true))] at h
      exact ⟨_, metadata_invariant_update_metadata _ now, (congrArg Prod.snd h).symm⟩

theorem isValid_eq_length (data : Ledger) :
    (validate_feature_list data).isValid =
      ((validate_feature_list data).errors.length == 0) := rfl

/-! ## Claim theorems -/

/-- C1, counterexample: on a ledger holding a failing feature with no
priority field (A1) before a failing feature declared `low` (B1), the
code returns A1 — both rank 3, tie broken by position — while the
claim's rank table (missing priority = 4) would return B1. -/
theorem c1_counterexample :
    (next_feature ledger_c1_cex).map Feature.id = some (some "A1") ∧
    (next_feature_claim ledger_c1_cex).map Feature.id = some (some "B1") ∧
    next_feature ledger_c1_cex ≠ next_feature_claim ledger_c1_cex := by
  decide

/-- C1 (amended): NextFeature filters to the features whose `passes` is
false or missing, stable-sorts them by rank critical=0, high=1,
medium=2, low=3, with a MISSING priority defaulting to `'low'` (rank 3)
and only an unrecognized declared priority ranked 4, ties broken by
original position, and returns the first entry (`none` when no failing
feature remains); equivalently it returns the earliest failing feature
of minimal rank; on the ledger [F001 high failing, F002 critical
failing] it returns F002. -/
theorem c1_amended_next_feature :
    (∀ data : Ledger, next_feature data = first_min_rank (failing_of data)) ∧
    (next_feature ledger_c1_scenario).map Feature.id = some (some "F002") := by
  constructor
  · intro data
    unfold next_feature get_next_features first_min_rank
    rw [head?_take_five, head_sort_by_key]
  · decide

/-- C2, counterexample: Mutate("F001", false) on a ledger whose only
feature already fails but whose stored metadata is stale (total 99)
returns success without recomputing anything, so the claimed invariant
fails after a successful Mutate. -/
theorem c2_counterexample :
    ((update_feature_status fs_c2_cex "F001" false false "now").1).success = true ∧
    metadata_invariant ((update_feature_status fs_c2_cex "F001" false false "now").2).primary = false := by
  decide

/-- C2 (amended): after a successful Mutate that performs a change
(outcome `updated`), the recomputed metadata satisfies
passing + failing == total_features == len(features), with passing
counting the features whose passes field holds and failing the rest; a
no-op success leaves the ledger, metadata included, untouched. -/
theorem c2_amended_metadata_invariant (fs : FileState) (fid : String) (p : Bool)
    (now : String) (a b : Bool) (fs' : FileState)
    (h : update_feature_status fs fid p false now = (UpdateOutcome.updated a b, fs')) :
    metadata_invariant fs'.primary = true := by
  obtain ⟨d2, hinv, hsave⟩ := updated_path fs fid p now a b fs' h
  subst hsave
  exact hinv

/-- C2, witness: Mutate("F002", true) on a two-feature ledger ends in a
state satisfying the metadata invariant. -/
theorem c2_witness : metadata_invariant fs_c2_w_after.primary = true :=
  c2_amended_metadata_invariant fs_c2_w "F002" true "now" false true fs_c2_w_after
    (by decide)

/-- C3 (confirmed): when the feature is found and its current status
(`passes` defaulted to false) equals the requested one, Mutate is a
no-op success — outcome `noChange`, reported changed = false, and the
file state (primary file, backup, hence also `metadata.last_updated`)
is returned entirely unchanged. -/
theorem c3_noop_idempotent (fs : FileState) (fid : String) (i : Nat) (f : Feature)
    (d : Bool) (now : String)
    (h : find_feature fs.primary fid = some (i, f)) :
    update_feature_status fs fid (f.passes.getD false) d now =
      (UpdateOutcome.noChange (f.passes.getD false), fs) ∧
    (UpdateOutcome.noChange (f.passes.getD false)).success = true ∧
    (UpdateOutcome.noChange (f.passes.getD false)).changed = false := by
  refine ⟨?_, rfl, rfl⟩
  unfold update_feature_status
  rw [h]
  simp

/-- C3, witness: the no-op Mutate("F001", true) on a ledger whose F001
already passes. -/
theorem c3_witness :
    update_feature_status fs_c3_w "F001" true false "now" =
      (UpdateOutcome.noChange true, fs_c3_w) ∧
    (UpdateOutcome.noChange true).success = true ∧
    (UpdateOutcome.noChange true).changed = false :=
  c3_noop_idempotent fs_c3_w "F001" 0
    (Feature.mk (some "F001") none none (some "high") none (some true))
    false "now" (by decide)

/-- C4, counterexample: with three features sharing id "F001" the
validator appends one duplicate error per occurrence after the first —
two errors, not the claimed exactly one per offending id. -/
theorem c4_counterexample :
    (validate_feature_list ledger_c4_cex).isValid = false ∧
    count_dup "F001" (validate_feature_list ledger_c4_cex).errors = 2 ∧
    count_dup "F001" (validate_feature_list ledger_c4_cex).errors ≠ 1 := by
  decide

/-- C4 (amended): for every ledger in which some present, non-empty id
value x occurs on k ≥ 2 features, validation reports the ledger invalid
and emits exactly k - 1 duplicate-id errors naming x (one per
occurrence after the first; the message carries the id but no occurrence
count); in particular two features sharing "F001" yield exactly one
duplicate-id error naming "F001". -/
theorem c4_amended_duplicate_errors (data : Ledger) (x : String)
    (h : 2 ≤ id_count x data.features) :
    (validate_feature_list data).isValid = false ∧
    count_dup x (validate_feature_list data).errors = id_count x data.features - 1 := by
  have hc := count_dup_validate_feature_list x data
  refine ⟨?_, hc⟩
  have h1 : 1 ≤ count_dup x (validate_feature_list data).errors := by omega
  have h2 := count_dup_le_length x (validate_feature_list data).errors
  have h3 : (validate_feature_list data).errors.length ≠ 0 := by omega
  rw [isValid_eq_length, beq_eq_false_iff_ne]
  exact h3

/-- C4, witness: the two-feature F001 ledger is invalid with exactly
`2 - 1 = 1` duplicate-id error naming F001. -/
theorem c4_witness :
    (validate_feature_list ledger_c4_w).isValid = false ∧
    count_dup "F001" (validate_feature_list ledger_c4_w).errors =
      id_count "F001" ledger_c4_w.features - 1 :=
  c4_amended_duplicate_errors ledger_c4_w "F001" (by decide)

/-- C5 (confirmed): on every mutating Mutate the final state is
`write_primary (write_backup fs) d`: the backup slot of the result holds
exactly the pre-mutation primary file, and the intermediate state after
the backup step and before the primary write still has the original
primary intact together with a valid backup of it — so a persist
failure between the two steps loses nothing. -/
theorem c5_backup_before_write (fs : FileState) (fid : String) (p : Bool)
    (now : String) (a b : Bool) (fs' : FileState)
    (h : update_feature_status fs fid p false now = (UpdateOutcome.updated a b, fs')) :
    fs'.backup = some fs.primary ∧
    (∃ d2, fs' = write_primary (write_backup fs) d2) ∧
    (write_backup fs).primary = fs.primary ∧
    (write_backup fs).backup = some fs.primary := by
  obtain ⟨d2, _, hsave⟩ := updated_path fs fid p now a b fs' h
  subst hsave
  exact ⟨rfl, ⟨d2, rfl⟩, rfl, rfl⟩

/-- C5, witness: Mutate("F002", true) on the scenario state writes the
backup of the pre-mutation ledger before overwriting the primary. -/
theorem c5_witness :
    fs_c5_w_after.backup = some fs_c5_w.primary ∧
    (∃ d2, fs_c5_w_after = write_primary (write_backup fs_c5_w) d2) ∧
    (write_backup fs_c5_w).primary = fs_c5_w.primary ∧
    (write_backup fs_c5_w).backup = some fs_c5_w.primary :=
  c5_backup_before_write fs_c5_w "F002" true "now" false true fs_c5_w_after
    (by decide)

/-- C6, counterexample: `with_suffix('.json.bak')` REPLACES the final
extension, so the ledger file name `features.txt` gets backup
`features.json.bak`, not the claimed `features.txt.bak`. -/
theorem c6_counterexample :
    backup_name ("features.txt".toList) = ("features.json.bak".toList) ∧
    backup_name ("features.txt".toList) ≠ ("features.txt.bak".toList) := by
  decide

/-- C6 (amended): the backup lives at the sibling path obtained by
replacing the ledger filename's final extension with `.json.bak`; when
that extension is `.json` — as for the default `feature_list.json` —
this coincides with appending `.bak` to the filename; and the backup
slot always holds exactly the most recent pre-mutation snapshot,
overwritten (not accumulated) on each backed-up save. -/
theorem c6_amended_backup_path (name : List Char)
    (h : path_suffix name = ".json".toList) :
    backup_name name = name ++ ".bak".toList ∧
    ∀ (fs : FileState) (d : Ledger),
      (save_feature_list fs d true).backup = some fs.primary := by
  constructor
  · unfold backup_name with_suffix
    have hsplit : name.take (name.length - path_suffix_len name) ++ path_suffix name = name := by
      unfold path_suffix
      exact List.take_append_drop _ name
    have hjson : ".json.bak".toList = ".json".toList ++ ".bak".toList := by decide
    rw [hjson, ← List.append_assoc, ← h, hsplit]
  · intro fs d
    rfl

/-- C6, witness: for the default name `feature_list.json` the backup
name is `feature_list.json.bak`, and a backed-up save snapshots the
pre-mutation primary. -/
theorem c6_witness :
    backup_name ("feature_list.json".toList) =
      ("feature_list.json".toList) ++ (".bak".toList) ∧
    (save_feature_list fs_c6_w ledger_c6_w true).backup = some fs_c6_w.primary := by
  have hthm := c6_amended_backup_path ("feature_list.json".toList) (by decide)
  exact ⟨hthm.1, hthm.2 fs_c6_w ledger_c6_w⟩

/-- C7 (confirmed): when no feature carries the requested id, Mutate
fails (returns False) with a feature-not-found outcome carrying the ids
of the first ten features as the sample of available ids, and returns
the file state — primary and backup — entirely unchanged. -/
theorem c7_feature_not_found (fs : FileState) (fid : String) (p d : Bool) (now : String)
    (h : ∀ f ∈ fs.primary.features, f.id ≠ some fid) :
    update_feature_status fs fid p d now =
      (UpdateOutcome.featureNotFound ((fs.primary.features.take 10).map Feature.id), fs) ∧
    (UpdateOutcome.featureNotFound ((fs.primary.features.take 10).map Feature.id)).success = false := by
  refine ⟨?_, rfl⟩
  have hn : find_feature fs.primary fid = none :=
    find_feature_aux_none fid fs.primary.features 0 h
  unfold update_feature_status
  rw [hn]

/-- C7, witness: Mutate("F999", true) on a two-feature ledger without
F999 fails and leaves the state unchanged. -/
theorem c7_witness :
    update_feature_status fs_c7_w "F999" true false "now" =
      (UpdateOutcome.featureNotFound ((fs_c7_w.primary.features.take 10).map Feature.id), fs_c7_w) ∧
    (UpdateOutcome.featureNotFound ((fs_c7_w.primary.features.take 10).map Feature.id)).success = false :=
  c7_feature_not_found fs_c7_w "F999" true false "now" (by decide)

/-- C8 (confirmed): on a ledger with an empty feature list the computed
statistics are total 0, passing 0, failing 0; the report percentage
`passing / max(total, 1) * 100` evaluates to 0 with a non-zero divisor;
and the progress bar prints nothing (computing no percentage at all). -/
theorem c8_stats_empty (l : Ledger) (h : l.features = []) :
    compute_stats l.features = Stats.mk 0 0 0 [] [] ∧
    report_pct (compute_stats l.features).passing (compute_stats l.features).total = 0 ∧
    max ((compute_stats l.features).total : ℚ) 1 ≠ 0 ∧
    print_progress_bar (compute_stats l.features).passing (compute_stats l.features).total 40 = none := by
  rw [h]
  refine ⟨rfl, ?_, ?_, rfl⟩
  · norm_num [report_pct, compute_stats]
  · norm_num [compute_stats]

/-- C8, witness: the empty ledger instance. -/
theorem c8_witness :
    compute_stats ledger_c8_w.features = Stats.mk 0 0 0 [] [] ∧
    report_pct (compute_stats ledger_c8_w.features).passing (compute_stats ledger_c8_w.features).total = 0 ∧
    max ((compute_stats ledger_c8_w.features).total : ℚ) 1 ≠ 0 ∧
    print_progress_bar (compute_stats ledger_c8_w.features).passing (compute_stats ledger_c8_w.features).total 40 = none :=
  c8_stats_empty ledger_c8_w rfl

theorem count_failing_pos : ∀ (ls : List Feature) (f : Feature), f ∈ ls →
    f.passes.getD false = false → 1 ≤ count_failing ls
  | [], _, hmem, _ => by cases hmem
  | g :: rest, f, hmem, hf => by
    simp only [count_failing, List.countP_cons]
    rcases List.mem_cons.mp hmem with h | h
    · subst h
      simp [hf]
    · have := count_failing_pos rest f h hf
      simp only [count_failing] at this
      omega

/-- C9 (confirmed): a feature whose `passes` field is absent is failing
for every operation — the shared access `f.get('passes', False)` yields
false; NextFeature's filter keeps it; metadata recomputation counts it
under `failing`; and Mutate(id, false) on it is the no-op success
(`changed = false`, nothing written). -/
theorem c9_missing_passes_failing (f : Feature) (h : f.passes = none) :
    f.passes.getD false = false ∧
    (∀ l : Ledger, f ∈ l.features → f ∈ failing_of l) ∧
    (∀ ls : List Feature, f ∈ ls → 1 ≤ count_failing ls) ∧
    (∀ (fs : FileState) (fid : String) (i : Nat) (d : Bool) (now : String),
      find_feature fs.primary fid = some (i, f) →
      update_feature_status fs fid false d now = (UpdateOutcome.noChange false, fs)) := by
  have hge : f.passes.getD false = false := by rw [h]; rfl
  refine ⟨hge, ?_, ?_, ?_⟩
  · intro l hmem
    unfold failing_of
    rw [List.mem_filter]
    exact ⟨hmem, by rw [hge]; rfl⟩
  · intro ls hmem
    exact count_failing_pos ls f hmem hge
  · intro fs fid i d now hfind
    unfold update_feature_status
    rw [hfind]
    simp [hge]

/-- C9, witness: the feature F001 without a `passes` field. -/
theorem c9_witness :
    f_c9.passes.getD false = false ∧
    f_c9 ∈ failing_of ledger_c9_w ∧
    1 ≤ count_failing ledger_c9_w.features ∧
    update_feature_status fs_c9_w "F001" false false "now" =
      (UpdateOutcome.noChange false, fs_c9_w) := by
  have hthm := c9_missing_passes_failing f_c9 rfl
  exact ⟨hthm.1, hthm.2.1 ledger_c9_w (by decide),
    hthm.2.2.1 ledger_c9_w.features (by decide),
    hthm.2.2.2 fs_c9_w "F001" 0 false "now" (by decide)⟩

/-- C10 (confirmed): every duplicate-id error the validator reports
names a non-empty id occurring on at least two features whose id is
present and non-empty — features with a missing, null or empty id are
never the source of a duplicate-id error. -/
theorem c10_duplicate_only_truthy_ids (data : Ledger) (x : String)
    (h : VError.duplicateId x ∈ (validate_feature_list data).errors) :
    x ≠ "" ∧ 2 ≤ id_count x data.features := by
  have h1 := count_dup_pos_of_mem h
  have h2 := count_dup_validate_feature_list x data
  have h3 : 2 ≤ id_count x data.features := by omega
  refine ⟨?_, h3⟩
  intro hx
  subst hx
  rw [id_count_empty_string] at h3
  omega

/-- C10, witness: in a ledger mixing two absent-id and two empty-id
features with a genuine F001 duplicate, the reported duplicate error
comes from the non-empty id occurring twice. -/
theorem c10_witness :
    "F001" ≠ "" ∧ 2 ≤ id_count "F001" ledger_c10_w.features :=
  c10_duplicate_only_truthy_ids ledger_c10_w "F001" (by decide)
